import Mathlib

/-! PlaybackPulseAudio: a shallow embedding of `src/main.c`.

The program talks to three collaborators that are not part of the repository: the audio
server (through the PulseAudio client library), the operating system (`pipe`, `fork`,
`execlp`, `waitpid`, `access`) and the terminal (`fgets` on standard input).  They are
gathered in one record, `World`, whose fields say how each of them answers.  Every C
function becomes a Lean function of the `World` that returns its C result together with
the list of `Event`s it causes, in program order.

Conventions.
* A C string is the list of its characters up to, and without, the terminating NUL.
* A handle (`pa_mainloop *`, `pa_context *`, `pa_operation *`) is a `Bool`: `true` for a
  non-NULL pointer.
* Diagnostic output (`printf`, `fprintf`, `perror`) and heap bookkeeping
  (`strdup`, `free`) are not recorded.
* A request whose operation is polled with `pa_mainloop_iterate` is answered by the list
  of callback invocations the library makes before the operation leaves the running
  state.
* The `do ... while (loop_playback)` loop of `play_audio` is run with a bound on the number
  of iterations; a run that reaches the bound is reported as not having returned.
-/

namespace PlaybackPulseAudio

/-- A C string: its characters before the terminating NUL. -/
abbrev CStr := List Char

/-- The constant `MAX_PATH_LENGTH`. -/
def MAX_PATH_LENGTH : Nat := 1024

/-- Values of `pa_context_state_t`. -/
inductive ContextState where
  | unconnected
  | connecting
  | authorizing
  | setting_name
  | ready
  | failed
  | terminated
  deriving DecidableEq, Repr

/-- One invocation of a `pa_sink_info_cb_t` callback: the name of the sink in `info`
(`none` for a NULL `info`) and the `eol` argument. -/
structure SinkInfoCb where
  info : Option CStr
  eol : Int
  deriving DecidableEq, Repr

/-- What the program observes and causes outside itself, in program order. -/
inductive Event where
  | mainloop_new (ok : Bool)
  | mainloop_get_api (ok : Bool)
  | context_new (ok : Bool)
  | context_connect (ok : Bool)
  | context_disconnect
  | context_unref
  | mainloop_free
  | get_sink_info_by_name (name : CStr) (issued : Bool)
  | get_server_info (issued : Bool)
  | get_module_info_list (issued : Bool)
  | load_module (name : CStr) (argument : CStr) (issued : Bool)
  | sleep (seconds : Nat)
  | pipe (ok : Bool)
  | fork (ok : Bool)
  | execlp (file : CStr) (argv : List CStr)
  | waitpid (status : Int)
  | close (pipe_end : Nat)
  | access (path : CStr) (ok : Bool)
  deriving DecidableEq, Repr

/-- The collaborators of the program. -/
structure World where
  /-- `pa_mainloop_new` returns a non-NULL main loop. -/
  mainloop_new : Bool
  /-- `pa_mainloop_get_api` returns a non-NULL API. -/
  mainloop_get_api : Bool
  /-- `pa_context_new` returns a non-NULL context. -/
  context_new : Bool
  /-- `pa_context_connect` returns a value that is not negative. -/
  context_connect : Bool
  /-- The states reported to the state callback while `pa_context_connect` runs. -/
  connect_states : List ContextState
  /-- The states reported to the state callback by each successive call of
  `pa_mainloop_iterate` made while waiting for the connection. -/
  iterations : List (List ContextState)
  /-- The characters a C string read from `SinkInfo.name` goes on with from `name[255]`
  on when `strncpy` has written no NUL: the bytes are not written by the program. -/
  junk : CStr
  /-- Answer to `pa_context_get_sink_info_by_name`: `none` when no operation is returned,
  else the callback invocations made until the operation finishes. -/
  sink_info_by_name : CStr → Option (List SinkInfoCb)
  /-- Answer to `pa_context_get_server_info`: `none` when no operation is returned, else
  the callback invocations: `none` for a NULL `info`, `some d` for an `info` whose
  `default_sink_name` is `d` (`none` when that pointer is NULL). -/
  server_info : Option (List (Option (Option CStr)))
  /-- `pa_context_get_module_info_list` returns an operation. -/
  module_info_list : Bool
  /-- `pa_context_load_module name argument` returns an operation. -/
  load_module : CStr → CStr → Bool
  /-- `pipe` succeeds. -/
  pipe : Bool
  /-- The `i`-th call of `fork` succeeds. -/
  fork : Nat → Bool
  /-- The wait status stored by the `i`-th call of `waitpid`. -/
  wait_status : Nat → Int
  /-- `access path R_OK` returns 0. -/
  access : CStr → Bool

/-! ## C library functions -/

/-- The C string read back from an uninitialised buffer after `strncpy dest src n`:
`src` itself when it is shorter than `n` (the rest is padded with NUL), else its first `n`
characters with no terminator, followed by whatever stands behind them. -/
def strncpy (src : CStr) (n : Nat) (behind : CStr) : CStr :=
  if src.length < n then src else src.take n ++ behind

/-- The C string left in a buffer of `size` bytes by `snprintf`, given the fully
formatted text: at most `size - 1` characters are stored. -/
def snprintf (size : Nat) (formatted : CStr) : CStr :=
  formatted.take (size - 1)

/-! ## Sink inspector -/

/-- The struct `SinkInfo`; `name` holds the C string read from the 256-byte array. -/
structure SinkInfo where
  name : CStr
  «exists» : Bool
  deriving DecidableEq, Repr

/-- The function `sink_info_callback`. -/
def sink_info_callback (cb : SinkInfoCb) (sink_info : SinkInfo) : SinkInfo :=
  if cb.eol > 0 ∨ cb.info = none then sink_info
  else if cb.info = some sink_info.name then { sink_info with «exists» := true }
  else sink_info

/-- The function `check_sink_exists`: its result and its events. -/
def check_sink_exists (w : World) (sink_name : CStr) : Bool × List Event :=
  let sink_info : SinkInfo :=
    { name := strncpy sink_name (256 - 1) w.junk, «exists» := false }
  match w.sink_info_by_name sink_name with
  | some answer =>
    ((answer.foldl (fun s cb => sink_info_callback cb s) sink_info).«exists»,
      [Event.get_sink_info_by_name sink_name true])
  | none => (sink_info.«exists», [Event.get_sink_info_by_name sink_name false])

/-- The constant `PA_INVALID_INDEX`. -/
def PA_INVALID_INDEX : Nat := 2 ^ 32 - 1

/-- The text of the format
`"sink_name=%s sink_properties=device.description=\"Virtual_Microphone\""` of
`ensure_virtual_sink`, filled in. -/
def virtual_sink_format (sink_name : CStr) : CStr :=
  "sink_name=".toList ++ sink_name ++
    " sink_properties=device.description=\"Virtual_Microphone\"".toList

/-- The function `ensure_virtual_sink`: its result and its events. -/
def ensure_virtual_sink (w : World) (sink_name : CStr) : Nat × List Event :=
  let module_index := PA_INVALID_INDEX
  let (found, t) := check_sink_exists w sink_name
  if !found then
    let module_args := snprintf 512 (virtual_sink_format sink_name)
    let op := w.load_module "module-null-sink".toList module_args
    if op then
      (module_index, t ++ [Event.load_module "module-null-sink".toList module_args true,
        Event.sleep 1])
    else
      (module_index, t ++ [Event.load_module "module-null-sink".toList module_args false])
  else
    (module_index, t)

/-! ## Audio-server client -/

/-- The struct `PAConnection`. -/
structure PAConnection where
  mainloop : Bool
  mainloop_api : Bool
  context : Bool
  ready : Int
  deriving DecidableEq, Repr

/-- The initialiser `{ NULL, NULL, NULL, 0 }` of `play_audio`. -/
def PAConnection.null : PAConnection :=
  { mainloop := false, mainloop_api := false, context := false, ready := 0 }

/-- The function `context_state_callback`. -/
def context_state_callback (state : ContextState) (pa : PAConnection) : PAConnection :=
  match state with
  | .ready => { pa with ready := 1 }
  | .failed => { pa with ready := 2 }
  | .terminated => { pa with ready := 2 }
  | _ => pa

/-- The loop `while (pa->ready == 0) pa_mainloop_iterate(...)` of `initialize_pa`: `none`
when the main loop has nothing more to report while `ready` is still 0, so that the loop
does not end. -/
def wait_ready (pa : PAConnection) : List (List ContextState) → Option PAConnection
  | [] => if pa.ready = 0 then none else some pa
  | states :: rest =>
    if pa.ready = 0 then
      wait_ready (states.foldl (fun p s => context_state_callback s p) pa) rest
    else some pa

/-- The function `initialize_pa`: its events, and its result with the connection it
leaves, or `none` when it does not return. -/
def initialize_pa (w : World) (pa : PAConnection) :
    List Event × Option (Bool × PAConnection) :=
  let pa := { pa with mainloop := w.mainloop_new }
  if !pa.mainloop then
    ([Event.mainloop_new false], some (false, pa))
  else
    let pa := { pa with mainloop_api := w.mainloop_get_api }
    if !pa.mainloop_api then
      ([Event.mainloop_new true, Event.mainloop_get_api false, Event.mainloop_free],
        some (false, pa))
    else
      let pa := { pa with context := w.context_new }
      if !pa.context then
        ([Event.mainloop_new true, Event.mainloop_get_api true, Event.context_new false,
          Event.mainloop_free], some (false, pa))
      else
        let pa := { pa with ready := 0 }
        let pa := w.connect_states.foldl (fun p s => context_state_callback s p) pa
        if !w.context_connect then
          ([Event.mainloop_new true, Event.mainloop_get_api true, Event.context_new true,
            Event.context_connect false, Event.context_unref, Event.mainloop_free],
            some (false, pa))
        else
          match wait_ready pa w.iterations with
          | none =>
            ([Event.mainloop_new true, Event.mainloop_get_api true, Event.context_new true,
              Event.context_connect true], none)
          | some pa =>
            if pa.ready = 2 then
              ([Event.mainloop_new true, Event.mainloop_get_api true,
                Event.context_new true, Event.context_connect true, Event.context_unref,
                Event.mainloop_free], some (false, pa))
            else
              ([Event.mainloop_new true, Event.mainloop_get_api true,
                Event.context_new true, Event.context_connect true], some (true, pa))

/-- The function `cleanup_pa`: its events. -/
def cleanup_pa (pa : PAConnection) : List Event :=
  (if pa.context then [Event.context_disconnect, Event.context_unref] else []) ++
    (if pa.mainloop then [Event.mainloop_free] else [])

/-! ## Default-sink query and sink provisioner -/

/-- The struct `DefaultSinkInfo`: `none` is the NULL pointer. -/
structure DefaultSinkInfo where
  sink_name : Option CStr
  deriving DecidableEq, Repr

/-- The function `get_default_sink_callback`; `info` is `none` for a NULL `info`, else
the `default_sink_name` pointer of the server info. -/
def get_default_sink_callback (info : Option (Option CStr)) (sink_info : DefaultSinkInfo) :
    DefaultSinkInfo :=
  match info with
  | some (some default_sink_name) => { sink_info with sink_name := some default_sink_name }
  | _ => sink_info

/-- The function `get_default_sink`: its result and its events. -/
def get_default_sink (w : World) : Option CStr × List Event :=
  let sink_info : DefaultSinkInfo := { sink_name := none }
  match w.server_info with
  | some answer =>
    ((answer.foldl (fun s info => get_default_sink_callback info s) sink_info).sink_name,
      [Event.get_server_info true])
  | none => (sink_info.sink_name, [Event.get_server_info false])

/-- The text of the format `"sink_name=combined-output slaves=%s,%s
sink_properties=device.description=\"Combined_Output\""` (one line in the source) of
`create_combined_sink`, filled in. -/
def combined_sink_format (virtual_sink default_sink : CStr) : CStr :=
  "sink_name=combined-output slaves=".toList ++ virtual_sink ++ ",".toList ++
    default_sink ++ " sink_properties=device.description=\"Combined_Output\"".toList

/-- The function `create_combined_sink`: its result and its events. -/
def create_combined_sink (w : World) (virtual_sink default_sink : CStr) :
    Nat × List Event :=
  let module_args := snprintf 512 (combined_sink_format virtual_sink default_sink)
  let op := w.load_module "module-combine-sink".toList module_args
  if op then
    (1, [Event.get_module_info_list w.module_info_list,
      Event.load_module "module-combine-sink".toList module_args true, Event.sleep 1])
  else
    (0, [Event.get_module_info_list w.module_info_list,
      Event.load_module "module-combine-sink".toList module_args false])

/-! ## Playback runner -/

/-- How the playback loop of `play_audio` was left. -/
inductive LoopExit where
  | completed
  | fork_failed
  | still_running
  deriving DecidableEq, Repr

/-- The argument vector `play_audio` hands to `execlp`. -/
def transcoder_argv (file_name target_sink : CStr) : List CStr :=
  ["ffmpeg".toList, "-re".toList, "-i".toList, file_name, "-f".toList, "pulse".toList,
    "-ac".toList, "2".toList, target_sink]

/-- The events of iteration `i` of the playback loop when its `fork` succeeds: the child
closes the read end and calls `execlp`, the parent closes the write end and waits. -/
def playback_pass (w : World) (file_name target_sink : CStr) (i : Nat) : List Event :=
  [Event.fork true, Event.close 0,
    Event.execlp "ffmpeg".toList (transcoder_argv file_name target_sink),
    Event.close 1, Event.waitpid (w.wait_status i)]

/-- The loop `do ... while (loop_playback)` of `play_audio`, from its iteration number `i`
on, for at most `bound` iterations: its events and how it was left. -/
def playback_loop (w : World) (file_name target_sink : CStr) (loop_playback : Bool) :
    Nat → Nat → List Event × LoopExit
  | 0, _ => ([], LoopExit.still_running)
  | bound + 1, i =>
    if !w.fork i then
      ([Event.fork false, Event.close 0, Event.close 1], LoopExit.fork_failed)
    else
      let pass := playback_pass w file_name target_sink i
      if loop_playback then
        let (rest, how) := playback_loop w file_name target_sink loop_playback bound (i + 1)
        (pass ++ rest, how)
      else (pass, LoopExit.completed)

/-- Lines 211 to 225 of `play_audio`: the target sink the transcoder is given, and the
events of working it out. -/
def target_sink (w : World) (sink_name : CStr) (hear_audio : Bool) : CStr × List Event :=
  let target := sink_name
  if hear_audio then
    match get_default_sink w with
    | (some default_sink, t) =>
      let (created, t') := create_combined_sink w sink_name default_sink
      if created ≠ 0 then ("combined-output".toList, t ++ t') else (target, t ++ t')
    | (none, t) => (target, t)
  else (target, [])

/-- A run of `play_audio` or of `main`: its events, and whether it returned. -/
structure Run where
  trace : List Event
  returned : Bool
  deriving DecidableEq, Repr

/-- The function `play_audio`, its playback loop run for at most `bound` iterations. -/
def play_audio (w : World) (file_name sink_name : CStr) (hear_audio loop_playback : Bool)
    (bound : Nat) : Run :=
  let pa : PAConnection := PAConnection.null
  match initialize_pa w pa with
  | (t0, none) => { trace := t0, returned := false }
  | (t0, some (false, _)) => { trace := t0, returned := true }
  | (t0, some (true, pa)) =>
    let t1 := (ensure_virtual_sink w sink_name).2
    let (target, t2) := target_sink w sink_name hear_audio
    if !w.pipe then
      { trace := t0 ++ t1 ++ t2 ++ [Event.pipe false] ++ cleanup_pa pa, returned := true }
    else
      match playback_loop w file_name target loop_playback bound 0 with
      | (t3, LoopExit.still_running) =>
        { trace := t0 ++ t1 ++ t2 ++ [Event.pipe true] ++ t3, returned := false }
      | (t3, _) =>
        { trace := t0 ++ t1 ++ t2 ++ [Event.pipe true] ++ t3 ++ cleanup_pa pa,
          returned := true }

/-! ## Interactive front-end -/

/-- The characters `fgets` stores when it may store at most `room` of them: it stops
behind a newline; the second component is what is left of the stream. -/
def fgets_read : Nat → List Char → List Char × List Char
  | 0, stream => ([], stream)
  | _ + 1, [] => ([], [])
  | room + 1, c :: stream =>
    if c = '\n' then ([c], stream)
    else ((fgets_read room stream).1.cons c, (fgets_read room stream).2)

/-- The function `fgets` on a buffer of `size` bytes: `none` (NULL) at the end of the
stream, else the characters stored and the rest of the stream. -/
def fgets (size : Nat) (stream : List Char) : Option (List Char × List Char) :=
  if stream = [] then none else some (fgets_read (size - 1) stream)

/-- The C string in a buffer after `buf[strcspn(buf, "\n")] = 0`, `stored` being what
`fgets` put there: it ends at the first NUL or newline. -/
def strip_newline (stored : List Char) : CStr :=
  stored.takeWhile (fun c => c ≠ '\x00' ∧ c ≠ '\n')

/-- The test `response[0] == 'y' || response[0] == 'Y'` on the stripped answer. -/
def says_yes (response : CStr) : Bool :=
  response.head? = some 'y' ∨ response.head? = some 'Y'

/-- A call of `play_audio` with its arguments. -/
structure PlayCall where
  file_name : CStr
  sink_name : CStr
  hear_audio : Bool
  loop_playback : Bool
  deriving DecidableEq, Repr

/-- A run of `main`: its exit status (`none` when it did not return), the call of
`play_audio` it made, if any, and its events. -/
structure MainRun where
  status : Option Int
  call : Option PlayCall
  trace : List Event
  deriving DecidableEq, Repr

/-- The function `main` on the standard input `stdin`, the playback loop run for at most
`bound` iterations. -/
def main (w : World) (stdin : List Char) (bound : Nat) : MainRun :=
  match fgets MAX_PATH_LENGTH stdin with
  | none => { status := some 1, call := none, trace := [] }
  | some (stored, stdin) =>
    let audio_file := strip_newline stored
    if !w.access audio_file then
      { status := some 1, call := none, trace := [Event.access audio_file false] }
    else
      match fgets MAX_PATH_LENGTH stdin with
      | none => { status := some 1, call := none, trace := [Event.access audio_file true] }
      | some (stored, stdin) =>
        let sink_name := strip_newline stored
        let sink_name := if sink_name.length = 0 then "virtual-mic".toList else sink_name
        let (hear_audio, stdin) :=
          match fgets 10 stdin with
          | some (response, stdin) => (says_yes (strip_newline response), stdin)
          | none => (false, stdin)
        let loop_playback :=
          match fgets 10 stdin with
          | some (response, _) => says_yes (strip_newline response)
          | none => false
        let run := play_audio w audio_file sink_name hear_audio loop_playback bound
        { status := if run.returned then some 0 else none,
          call := some ⟨audio_file, sink_name, hear_audio, loop_playback⟩,
          trace := [Event.access audio_file true] ++ run.trace }

/-! ## Vocabulary of the properties -/

/-- The transcoder invocations of a trace: the file and the argument vector of each
`execlp`, in order. -/
def invocations : List Event → List (CStr × List CStr)
  | [] => []
  | Event.execlp file argv :: t => (file, argv) :: invocations t
  | _ :: t => invocations t

/-- The module loads of a trace: module name and argument string of each
`pa_context_load_module`, in order. -/
def module_loads : List Event → List (CStr × CStr)
  | [] => []
  | Event.load_module name argument _ :: t => (name, argument) :: module_loads t
  | _ :: t => module_loads t

/-- The event is a request to the audio server. -/
def is_server_request : Event → Bool
  | Event.get_sink_info_by_name _ _ => true
  | Event.get_server_info _ => true
  | Event.get_module_info_list _ => true
  | Event.load_module _ _ _ => true
  | _ => false

/-- The event belongs to `initialize_pa` and `cleanup_pa`: it creates, connects or
releases a handle. -/
def is_connection_event : Event → Bool
  | Event.mainloop_new _ => true
  | Event.mainloop_get_api _ => true
  | Event.context_new _ => true
  | Event.context_connect _ => true
  | Event.context_disconnect => true
  | Event.context_unref => true
  | Event.mainloop_free => true
  | _ => false

/-- The event is a call for a pipe or a process: `pipe`, `fork`, `execlp`, `waitpid`,
`close`. -/
def is_process_event : Event → Bool
  | Event.pipe _ => true
  | Event.fork _ => true
  | Event.execlp _ _ => true
  | Event.waitpid _ => true
  | Event.close _ => true
  | _ => false

/-- The events of a successful `initialize_pa`. -/
def connect_events : List Event :=
  [Event.mainloop_new true, Event.mainloop_get_api true, Event.context_new true,
    Event.context_connect true]

/-- The events of `cleanup_pa` on a connection whose context and main loop are set. -/
def cleanup_events : List Event :=
  [Event.context_disconnect, Event.context_unref, Event.mainloop_free]

/-- The connection gets established: `initialize_pa` returns true. -/
def connection_established (w : World) : Prop :=
  ∃ pa, (initialize_pa w PAConnection.null).2 = some (true, pa)

/-- The sink `name` is present: the answer to the query by that name delivers a result
that is not the end of the list and carries exactly that name. -/
def sink_present (w : World) (name : CStr) : Prop :=
  ∃ answer, w.sink_info_by_name name = some answer ∧
    ∃ cb ∈ answer, cb.eol ≤ 0 ∧ cb.info = some name

/-- The front-end turns the input down: the read of the audio file path fails, or the
path is not readable, or the read of the sink name fails. -/
def input_rejected (w : World) (stdin : List Char) : Prop :=
  match fgets MAX_PATH_LENGTH stdin with
  | none => True
  | some (stored, rest) =>
    w.access (strip_newline stored) = false ∨ fgets MAX_PATH_LENGTH rest = none

/-! ## Sample worlds and names -/

/-- A world in which every call succeeds, the connection gets ready at the third step of
the main loop, the server knows no sink by any name and reports no default sink. -/
def plain_world : World :=
  { mainloop_new := true
    mainloop_get_api := true
    context_new := true
    context_connect := true
    connect_states := [ContextState.connecting]
    iterations := [[ContextState.authorizing], [ContextState.setting_name],
      [ContextState.ready]]
    junk := []
    sink_info_by_name := fun _ => some [⟨none, -1⟩]
    server_info := some [some none]
    module_info_list := true
    load_module := fun _ _ => true
    pipe := true
    fork := fun _ => true
    wait_status := fun _ => 0
    access := fun _ => true }

/-- The world `plain_world` with a server that has the sink `name`, and with `junk`
behind the unterminated copy of a long name. -/
def world_with_sink (name junk : CStr) : World :=
  { plain_world with
    junk := junk
    sink_info_by_name := fun asked =>
      if asked = name then some [⟨some name, 0⟩, ⟨none, 1⟩] else some [⟨none, -1⟩] }

/-- The world `plain_world` with a server that reports the default sink
`alsa_output.pci-0000_00_1f.3`. -/
def world_with_default_sink : World :=
  { plain_world with
    server_info := some [some (some "alsa_output.pci-0000_00_1f.3".toList)] }

/-- The world `plain_world` with a server that reports the default sink
`alsa_output.pci-0000_00_1f.3` and returns no operation for a load of
`module-combine-sink`. -/
def world_combine_refused : World :=
  { plain_world with
    server_info := some [some (some "alsa_output.pci-0000_00_1f.3".toList)]
    load_module := fun name _ => decide (name ≠ "module-combine-sink".toList) }

/-- The world `plain_world` in which the connection fails while it is being set up. -/
def world_connection_failed : World :=
  { plain_world with
    iterations := [[ContextState.authorizing], [ContextState.failed]] }

/-- The world `plain_world` in which `pipe` fails. -/
def world_pipe_failed : World :=
  { plain_world with pipe := false }

/-- The world `plain_world` in which the second `fork` fails. -/
def world_fork_failed : World :=
  { plain_world with fork := fun i => decide (i < 1) }

/-- A sink name of 300 characters. -/
def long_name : CStr := List.replicate 300 'a'

/-- A sink name of 500 characters. -/
def wide_name : CStr := List.replicate 500 'a'

/-- A sink name of 600 characters. -/
def longer_name : CStr := List.replicate 600 'a'

/-! ## Sink inspector: lemmas -/

theorem strncpy_short (src behind : CStr) (n : Nat) (h : src.length < n) :
    strncpy src n behind = src := by
  simp [strncpy, h]

theorem strncpy_long_length (src behind : CStr) (n : Nat) (h : n ≤ src.length) :
    (strncpy src n behind).length = n + behind.length := by
  have h' : ¬ src.length < n := by omega
  simp [strncpy, h', List.length_take, Nat.min_eq_left h]

theorem foldl_sink_info_callback (answer : List SinkInfoCb) (s : SinkInfo) :
    answer.foldl (fun s cb => sink_info_callback cb s) s =
      { name := s.name
        «exists» := s.«exists» ||
          answer.any (fun cb => decide (cb.eol ≤ 0) && decide (cb.info = some s.name)) } := by
  induction answer generalizing s with
  | nil => simp
  | cons cb rest ih =>
    rw [List.foldl_cons, ih]
    by_cases h1 : cb.eol > 0
    · have h1' : ¬ cb.eol ≤ 0 := by omega
      simp [sink_info_callback, h1, h1']
    · have h1' : cb.eol ≤ 0 := by omega
      by_cases h2 : cb.info = none
      · simp [sink_info_callback, h2]
      · by_cases h3 : cb.info = some s.name
        · simp [sink_info_callback, h1, h1', h3]
        · simp [sink_info_callback, h1, h2, h3]

/-- What `check_sink_exists` computes: a result that is not the end of the list was
delivered whose name equals the copy of the requested name. -/
theorem check_sink_exists_iff (w : World) (sink_name : CStr) :
    (check_sink_exists w sink_name).1 = true ↔
      ∃ answer, w.sink_info_by_name sink_name = some answer ∧
        ∃ cb ∈ answer, cb.eol ≤ 0 ∧ cb.info = some (strncpy sink_name 255 w.junk) := by
  unfold check_sink_exists
  cases h : w.sink_info_by_name sink_name with
  | none => simp
  | some answer => simp [foldl_sink_info_callback]

/-- For a name of fewer than 255 characters `check_sink_exists` decides presence. -/
theorem check_sink_exists_short (w : World) (sink_name : CStr)
    (h : sink_name.length < 255) :
    (check_sink_exists w sink_name).1 = true ↔ sink_present w sink_name := by
  rw [check_sink_exists_iff, strncpy_short _ _ _ h, sink_present]

theorem check_sink_exists_short_witness :
    (check_sink_exists (world_with_sink "virtual-mic".toList []) "virtual-mic".toList).1
      = true ↔ sink_present (world_with_sink "virtual-mic".toList []) "virtual-mic".toList :=
  check_sink_exists_short _ _ (by decide)

theorem check_sink_exists_trace (w : World) (sink_name : CStr) :
    (check_sink_exists w sink_name).2 =
      [Event.get_sink_info_by_name sink_name (w.sink_info_by_name sink_name).isSome] := by
  unfold check_sink_exists
  cases h : w.sink_info_by_name sink_name <;> simp

theorem world_with_sink_answer (name junk : CStr) :
    (world_with_sink name junk).sink_info_by_name name =
      some [⟨some name, 0⟩, ⟨none, 1⟩] := by
  simp [world_with_sink]

theorem world_with_sink_junk (name junk : CStr) : (world_with_sink name junk).junk = junk :=
  rfl

theorem sink_present_world_with_sink (name junk : CStr) :
    sink_present (world_with_sink name junk) name :=
  ⟨_, world_with_sink_answer name junk, ⟨some name, 0⟩, by simp, by simp, rfl⟩

theorem long_name_length : long_name.length = 300 :=
  List.length_replicate _ _

theorem check_sink_exists_long_name (junk : CStr) (h : junk.length ≠ 45) :
    (check_sink_exists (world_with_sink long_name junk) long_name).1 = false := by
  rw [Bool.eq_false_iff]
  intro hc
  rw [check_sink_exists_iff, world_with_sink_answer, world_with_sink_junk] at hc
  obtain ⟨answer, ha, cb, hcb, _, hinfo⟩ := hc
  have hlen : (strncpy long_name 255 junk).length = 255 + junk.length :=
    strncpy_long_length _ _ _ (by rw [long_name_length]; omega)
  simp only [Option.some.injEq] at ha
  subst ha
  simp only [List.mem_cons, List.mem_singleton] at hcb
  rcases hcb with rfl | rfl | hcb
  · simp only [Option.some.injEq] at hinfo
    rw [← hinfo, long_name_length] at hlen
    omega
  · simp at hinfo
  · simp at hcb

/-! ## Claim on the sink inspector -/

/-- C9, at a name longer than the 256-byte `SinkInfo.name`: the server delivers a result
that is not the end of the list and carries exactly the requested name of 300
characters, and `check_sink_exists` still returns false, whatever stands behind the
unterminated copy unless it happens to be the 45 characters cut off. -/
theorem check_sink_exists_misses_long_name (junk : CStr) (h : junk.length ≠ 45) :
    sink_present (world_with_sink long_name junk) long_name ∧
      (check_sink_exists (world_with_sink long_name junk) long_name).1 = false :=
  ⟨sink_present_world_with_sink _ _, check_sink_exists_long_name junk h⟩

theorem check_sink_exists_misses_long_name_witness :
    ([] : CStr).length ≠ 45 ∧
      sink_present (world_with_sink long_name []) long_name ∧
      (check_sink_exists (world_with_sink long_name []) long_name).1 = false :=
  ⟨by decide, check_sink_exists_misses_long_name [] (by decide)⟩

/-! ## Sink provisioner: lemmas -/

theorem snprintf_fits (size : Nat) (formatted : CStr) (h : formatted.length ≤ size - 1) :
    snprintf size formatted = formatted :=
  List.take_of_length_le h

theorem virtual_sink_format_length (sink_name : CStr) :
    (virtual_sink_format sink_name).length = sink_name.length + 66 := by
  simp [virtual_sink_format]

theorem combined_sink_format_length (virtual_sink default_sink : CStr) :
    (combined_sink_format virtual_sink default_sink).length =
      virtual_sink.length + default_sink.length + 87 := by
  simp [combined_sink_format]
  omega

/-- The module loads of `ensure_virtual_sink`: none when `check_sink_exists` returns
true, else one load of `module-null-sink` with the text kept by `snprintf`. -/
theorem module_loads_ensure_virtual_sink (w : World) (sink_name : CStr) :
    module_loads (ensure_virtual_sink w sink_name).2 =
      if (check_sink_exists w sink_name).1 then []
      else [("module-null-sink".toList, snprintf 512 (virtual_sink_format sink_name))] := by
  unfold ensure_virtual_sink
  rcases hc : check_sink_exists w sink_name with ⟨found, t⟩
  have ht := check_sink_exists_trace w sink_name
  rw [hc] at ht
  simp only at ht
  subst ht
  cases found
  · simp only [Bool.not_false, if_true]
    split <;> simp [module_loads]
  · simp [module_loads]

/-- For a sink that is present under a name of fewer than 255 characters,
`ensure_virtual_sink` makes the query and loads no module. -/
theorem ensure_virtual_sink_present_short (w : World) (sink_name : CStr)
    (hlen : sink_name.length < 255) (h : sink_present w sink_name) :
    module_loads (ensure_virtual_sink w sink_name).2 = [] ∧
      ∃ issued, Event.get_sink_info_by_name sink_name issued ∈
        (ensure_virtual_sink w sink_name).2 := by
  have hfound := (check_sink_exists_short w sink_name hlen).2 h
  refine ⟨by rw [module_loads_ensure_virtual_sink, hfound]; rfl, ?_⟩
  refine ⟨(w.sink_info_by_name sink_name).isSome, ?_⟩
  unfold ensure_virtual_sink
  rcases hc : check_sink_exists w sink_name with ⟨found, t⟩
  have ht := check_sink_exists_trace w sink_name
  rw [hc] at ht hfound
  simp only at ht hfound
  subst ht hfound
  simp

theorem ensure_virtual_sink_present_short_witness :
    module_loads (ensure_virtual_sink (world_with_sink "virtual-mic".toList [])
      "virtual-mic".toList).2 = [] ∧
      ∃ issued, Event.get_sink_info_by_name "virtual-mic".toList issued ∈
        (ensure_virtual_sink (world_with_sink "virtual-mic".toList [])
          "virtual-mic".toList).2 :=
  ensure_virtual_sink_present_short _ _ (by decide) (sink_present_world_with_sink _ _)

/-- For a sink that `check_sink_exists` does not find under a name of at most 445
characters, `ensure_virtual_sink` loads `module-null-sink` once, the name verbatim in the
argument string. -/
theorem ensure_virtual_sink_absent_short (w : World) (sink_name : CStr)
    (hlen : sink_name.length ≤ 445) (h : (check_sink_exists w sink_name).1 = false) :
    module_loads (ensure_virtual_sink w sink_name).2 =
      [("module-null-sink".toList, virtual_sink_format sink_name)] := by
  rw [module_loads_ensure_virtual_sink, h, snprintf_fits]
  · rfl
  · rw [virtual_sink_format_length]
    omega

theorem ensure_virtual_sink_absent_short_witness :
    module_loads (ensure_virtual_sink plain_world "virtual-mic".toList).2 =
      [("module-null-sink".toList, virtual_sink_format "virtual-mic".toList)] :=
  ensure_virtual_sink_absent_short _ _ (by decide) (by decide)

theorem longer_name_length : longer_name.length = 600 :=
  List.length_replicate _ _

theorem wide_name_length : wide_name.length = 500 :=
  List.length_replicate _ _

theorem snprintf_virtual_sink_format_longer_name :
    snprintf 512 (virtual_sink_format longer_name) =
      "sink_name=".toList ++ List.replicate 501 'a' := by
  have h : (511 : Nat) = "sink_name=".toList.length + 501 := by decide
  rw [snprintf, virtual_sink_format, List.append_assoc, show 512 - 1 = 511 from rfl, h,
    List.take_append, List.take_append_of_le_length (by rw [longer_name_length]; omega),
    longer_name, List.take_replicate]
  rfl

theorem snprintf_combined_sink_format_wide_name (default_sink : CStr) :
    snprintf 512 (combined_sink_format wide_name default_sink) =
      "sink_name=combined-output slaves=".toList ++ List.replicate 478 'a' := by
  have h : (511 : Nat) = "sink_name=combined-output slaves=".toList.length + 478 := by
    decide
  rw [snprintf, combined_sink_format, List.append_assoc, List.append_assoc,
    List.append_assoc, show 512 - 1 = 511 from rfl, h,
    List.take_append, List.take_append_of_le_length (by rw [wide_name_length]; omega),
    wide_name, List.take_replicate]
  rfl

/-- The module loads of `create_combined_sink`: one load of `module-combine-sink` with the
text kept by `snprintf`. -/
theorem module_loads_create_combined_sink (w : World) (virtual_sink default_sink : CStr) :
    module_loads (create_combined_sink w virtual_sink default_sink).2 =
      [("module-combine-sink".toList,
        snprintf 512 (combined_sink_format virtual_sink default_sink))] := by
  unfold create_combined_sink
  dsimp only
  split <;> simp [module_loads]

/-- The result of `create_combined_sink` is 1 when the load request was issued, else 0. -/
theorem create_combined_sink_result (w : World) (virtual_sink default_sink : CStr) :
    (create_combined_sink w virtual_sink default_sink).1 =
      if w.load_module "module-combine-sink".toList
        (snprintf 512 (combined_sink_format virtual_sink default_sink)) then 1 else 0 := by
  unfold create_combined_sink
  dsimp only
  split <;> simp [*]

/-- When both names together have at most 424 characters, `create_combined_sink` loads
`module-combine-sink` once with the slaves list `virtual_sink,default_sink` in full, and
returns 1 exactly when the request was issued. -/
theorem create_combined_sink_short (w : World) (virtual_sink default_sink : CStr)
    (hlen : virtual_sink.length + default_sink.length ≤ 424) :
    module_loads (create_combined_sink w virtual_sink default_sink).2 =
        [("module-combine-sink".toList, combined_sink_format virtual_sink default_sink)] ∧
      ((create_combined_sink w virtual_sink default_sink).1 = 1 ↔
        Event.load_module "module-combine-sink".toList
          (combined_sink_format virtual_sink default_sink) true ∈
          (create_combined_sink w virtual_sink default_sink).2) := by
  have hfit : snprintf 512 (combined_sink_format virtual_sink default_sink) =
      combined_sink_format virtual_sink default_sink :=
    snprintf_fits _ _ (by rw [combined_sink_format_length]; omega)
  refine ⟨by rw [module_loads_create_combined_sink, hfit], ?_⟩
  unfold create_combined_sink
  rw [hfit]
  dsimp only
  split <;> simp

theorem create_combined_sink_short_witness :
    module_loads (create_combined_sink plain_world "virtual-mic".toList
        "alsa_output.pci-0000_00_1f.3".toList).2 =
        [("module-combine-sink".toList,
          ("sink_name=combined-output slaves=virtual-mic,alsa_output.pci-0000_00_1f.3" ++
            " sink_properties=device.description=\"Combined_Output\"").toList)] ∧
      ((create_combined_sink plain_world "virtual-mic".toList
          "alsa_output.pci-0000_00_1f.3".toList).1 = 1 ↔
        Event.load_module "module-combine-sink".toList
          (combined_sink_format "virtual-mic".toList "alsa_output.pci-0000_00_1f.3".toList)
          true ∈
          (create_combined_sink plain_world "virtual-mic".toList
            "alsa_output.pci-0000_00_1f.3".toList).2) :=
  create_combined_sink_short _ _ _ (by decide)

/-! ## Claims on the sink provisioner -/

/-- C1, at a name longer than the 256-byte `SinkInfo.name`: the sink of 300 characters is
present on the server, and `ensure_virtual_sink` still asks the server to load
`module-null-sink` under that name, whatever stands behind the unterminated copy unless
it happens to be the 45 characters cut off. -/
theorem ensure_virtual_sink_loads_duplicate (junk : CStr) (h : junk.length ≠ 45) :
    sink_present (world_with_sink long_name junk) long_name ∧
      module_loads (ensure_virtual_sink (world_with_sink long_name junk) long_name).2 =
        [("module-null-sink".toList, virtual_sink_format long_name)] :=
  ⟨sink_present_world_with_sink _ _,
    ensure_virtual_sink_absent_short _ _ (by rw [long_name_length]; omega)
      (check_sink_exists_long_name junk h)⟩

theorem ensure_virtual_sink_loads_duplicate_witness :
    ([] : CStr).length ≠ 45 ∧
      sink_present (world_with_sink long_name []) long_name ∧
      module_loads (ensure_virtual_sink (world_with_sink long_name []) long_name).2 =
        [("module-null-sink".toList, virtual_sink_format long_name)] :=
  ⟨by decide, ensure_virtual_sink_loads_duplicate [] (by decide)⟩

/-- C2, at a name that does not fit the 512-byte `module_args`: for the absent sink of
600 characters the one load request carries `sink_name=` and the first 501 characters
of the name only, which is not the text the format describes and does not contain the
name. -/
theorem ensure_virtual_sink_cuts_longer_name :
    (check_sink_exists plain_world longer_name).1 = false ∧
      module_loads (ensure_virtual_sink plain_world longer_name).2 =
        [("module-null-sink".toList, "sink_name=".toList ++ List.replicate 501 'a')] ∧
      "sink_name=".toList ++ List.replicate 501 'a' ≠ virtual_sink_format longer_name ∧
      ¬ longer_name <:+: "sink_name=".toList ++ List.replicate 501 'a' := by
  have hc : (check_sink_exists plain_world longer_name).1 = false := rfl
  refine ⟨hc, ?_, ?_, ?_⟩
  · rw [module_loads_ensure_virtual_sink, hc, snprintf_virtual_sink_format_longer_name]
    rfl
  · intro he
    have hl := congrArg List.length he
    rw [virtual_sink_format_length, longer_name_length, List.length_append,
      List.length_replicate] at hl
    exact absurd hl (by decide)
  · intro hi
    have hl := hi.length_le
    rw [longer_name_length, List.length_append, List.length_replicate] at hl
    exact absurd hl (by decide)

/-- C10, at names that do not fit the 512-byte `module_args`: for a virtual sink name of
500 characters the one load request carries `sink_name=combined-output slaves=` and the
first 478 characters of that name only: the default sink is not among the slaves and
the text is not the one the format describes. -/
theorem create_combined_sink_cuts_wide_name :
    module_loads (create_combined_sink plain_world wide_name
        "alsa_output.pci-0000_00_1f.3".toList).2 =
        [("module-combine-sink".toList,
          "sink_name=combined-output slaves=".toList ++ List.replicate 478 'a')] ∧
      "sink_name=combined-output slaves=".toList ++ List.replicate 478 'a' ≠
        combined_sink_format wide_name "alsa_output.pci-0000_00_1f.3".toList ∧
      (create_combined_sink plain_world wide_name
        "alsa_output.pci-0000_00_1f.3".toList).1 = 1 := by
  refine ⟨?_, ?_, ?_⟩
  · rw [module_loads_create_combined_sink, snprintf_combined_sink_format_wide_name]
  · intro he
    have hl := congrArg List.length he
    rw [combined_sink_format_length, wide_name_length, List.length_append,
      List.length_replicate] at hl
    exact absurd hl (by decide)
  · rw [create_combined_sink_result]
    rfl

theorem invocations_append (a b : List Event) :
    invocations (a ++ b) = invocations a ++ invocations b := by
  induction a with
  | nil => rfl
  | cons e a ih => cases e <;> simp [invocations, ih]

theorem mem_invocations (t : List Event) (file : CStr) (argv : List CStr) :
    (file, argv) ∈ invocations t ↔ Event.execlp file argv ∈ t := by
  induction t with
  | nil => simp [invocations]
  | cons e t ih => cases e <;> simp [invocations, ih]

theorem foldl_context_state_callback (states : List ContextState) (pa : PAConnection) :
    (states.foldl (fun p s => context_state_callback s p) pa).mainloop = pa.mainloop ∧
      (states.foldl (fun p s => context_state_callback s p) pa).context = pa.context := by
  induction states generalizing pa with
  | nil => simp
  | cons s rest ih =>
    rw [List.foldl_cons]
    refine ⟨(ih _).1.trans ?_, (ih _).2.trans ?_⟩ <;> cases s <;> rfl

theorem wait_ready_handles (iterations : List (List ContextState)) (pa pa' : PAConnection)
    (h : wait_ready pa iterations = some pa') :
    pa'.mainloop = pa.mainloop ∧ pa'.context = pa.context := by
  induction iterations generalizing pa with
  | nil =>
    unfold wait_ready at h
    split at h
    · cases h
    · cases h; exact ⟨rfl, rfl⟩
  | cons states rest ih =>
    unfold wait_ready at h
    split at h
    · have h1 := ih _ h
      have h2 := foldl_context_state_callback states pa
      exact ⟨h1.1.trans h2.1, h1.2.trans h2.2⟩
    · cases h; exact ⟨rfl, rfl⟩

/-- A successful `initialize_pa` has made the four calls that create and connect the
handles, and leaves both the main loop and the context in place. -/
theorem initialize_pa_success (w : World) (t : List Event) (pa : PAConnection)
    (h : initialize_pa w PAConnection.null = (t, some (true, pa))) :
    t = [Event.mainloop_new true, Event.mainloop_get_api true, Event.context_new true,
        Event.context_connect true] ∧
      pa.mainloop = true ∧ pa.context = true := by
  unfold initialize_pa at h
  dsimp only at h
  split at h
  · cases h
  · split at h
    · cases h
    · split at h
      · cases h
      · split at h
        · cases h
        · split at h
          · cases h
          · rename_i pa1 hw
            have hh := wait_ready_handles _ _ _ hw
            have hf := foldl_context_state_callback w.connect_states
              { mainloop := true, mainloop_api := true, context := true, ready := 0 }
            split at h
            · cases h
            · cases h
              simp_all

/-! ## Playback runner: lemmas -/

theorem initialize_pa_events (w : World) (pa : PAConnection) :
    ∀ e ∈ (initialize_pa w pa).1, is_connection_event e = true := by
  unfold initialize_pa
  dsimp only
  repeat' split
  all_goals simp [is_connection_event]

theorem ensure_virtual_sink_trace (w : World) (sink_name : CStr) :
    (ensure_virtual_sink w sink_name).2 =
      Event.get_sink_info_by_name sink_name (w.sink_info_by_name sink_name).isSome ::
        (if (check_sink_exists w sink_name).1 then []
        else if w.load_module "module-null-sink".toList
            (snprintf 512 (virtual_sink_format sink_name)) then
          [Event.load_module "module-null-sink".toList
            (snprintf 512 (virtual_sink_format sink_name)) true, Event.sleep 1]
        else
          [Event.load_module "module-null-sink".toList
            (snprintf 512 (virtual_sink_format sink_name)) false]) := by
  unfold ensure_virtual_sink
  rcases hc : check_sink_exists w sink_name with ⟨found, t⟩
  have ht := check_sink_exists_trace w sink_name
  rw [hc] at ht
  simp only at ht
  subst ht
  cases found
  · simp only [Bool.not_false, if_true]
    split <;> simp
  · simp

theorem get_default_sink_trace (w : World) :
    (get_default_sink w).2 = [Event.get_server_info w.server_info.isSome] := by
  unfold get_default_sink
  cases w.server_info <;> simp

theorem create_combined_sink_trace (w : World) (virtual_sink default_sink : CStr) :
    (create_combined_sink w virtual_sink default_sink).2 =
      Event.get_module_info_list w.module_info_list ::
        (if w.load_module "module-combine-sink".toList
            (snprintf 512 (combined_sink_format virtual_sink default_sink)) then
          [Event.load_module "module-combine-sink".toList
            (snprintf 512 (combined_sink_format virtual_sink default_sink)) true,
            Event.sleep 1]
        else
          [Event.load_module "module-combine-sink".toList
            (snprintf 512 (combined_sink_format virtual_sink default_sink)) false]) := by
  unfold create_combined_sink
  dsimp only
  split <;> simp

theorem ensure_virtual_sink_events (w : World) (sink_name : CStr) :
    ∀ e ∈ (ensure_virtual_sink w sink_name).2,
      (is_server_request e = true ∨ e = Event.sleep 1) ∧
      (∀ issued, e ≠ Event.get_server_info issued) ∧
      (∀ argument issued,
        e ≠ Event.load_module "module-combine-sink".toList argument issued) := by
  intro e he
  rw [ensure_virtual_sink_trace] at he
  have hne : "module-null-sink".toList ≠ "module-combine-sink".toList := by decide
  rw [List.mem_cons] at he
  rcases he with rfl | he
  · simp [is_server_request]
  · split at he
    · cases he
    · split at he
      · simp only [List.mem_cons, List.mem_singleton, List.mem_nil_iff, or_false] at he
        rcases he with rfl | rfl
        · refine ⟨Or.inl rfl, fun _ h => (by cases h), fun _ _ h => ?_⟩
          injection h with h1
          exact hne h1
        · exact ⟨Or.inr rfl, fun _ h => (by cases h), fun _ _ h => by cases h⟩
      · simp only [List.mem_singleton] at he
        subst he
        refine ⟨Or.inl rfl, fun _ h => (by cases h), fun _ _ h => ?_⟩
        injection h with h1
        exact hne h1

theorem playback_loop_events (w : World) (file_name target : CStr) (loop_playback : Bool)
    (bound i : Nat) :
    ∀ e ∈ (playback_loop w file_name target loop_playback bound i).1,
      is_process_event e = true ∧
      ∀ file argv, e = Event.execlp file argv →
        file = "ffmpeg".toList ∧ argv = transcoder_argv file_name target := by
  induction bound generalizing i with
  | zero => simp [playback_loop]
  | succ bound ih =>
    have hpass : ∀ e ∈ playback_pass w file_name target i,
        is_process_event e = true ∧
        ∀ file argv, e = Event.execlp file argv →
          file = "ffmpeg".toList ∧ argv = transcoder_argv file_name target := by
      intro e he
      simp only [playback_pass, List.mem_cons, List.mem_singleton, List.mem_nil_iff,
        or_false] at he
      rcases he with rfl | rfl | rfl | rfl | rfl
      · exact ⟨rfl, fun _ _ h => by cases h⟩
      · exact ⟨rfl, fun _ _ h => by cases h⟩
      · refine ⟨rfl, fun _ _ h => ?_⟩
        injection h with h1 h2
        exact ⟨h1.symm, h2.symm⟩
      · exact ⟨rfl, fun _ _ h => by cases h⟩
      · exact ⟨rfl, fun _ _ h => by cases h⟩
    unfold playback_loop
    split
    · intro e he
      simp only [List.mem_cons, List.mem_singleton, List.mem_nil_iff, or_false] at he
      rcases he with rfl | rfl | rfl <;> exact ⟨rfl, fun _ _ h => by cases h⟩
    · cases loop_playback
      · exact hpass
      · intro e he
        simp only [if_true, List.mem_append] at he
        rcases he with he | he
        · exact hpass e he
        · exact ih _ e he

theorem target_sink_silent (w : World) (sink_name : CStr) :
    target_sink w sink_name false = (sink_name, []) := by
  simp [target_sink]

theorem target_sink_hearing (w : World) (sink_name : CStr) :
    target_sink w sink_name true =
      match (get_default_sink w).1 with
      | some default_sink =>
        (if (create_combined_sink w sink_name default_sink).1 ≠ 0 then
            "combined-output".toList
          else sink_name,
          Event.get_server_info w.server_info.isSome ::
            (create_combined_sink w sink_name default_sink).2)
      | none => (sink_name, [Event.get_server_info w.server_info.isSome]) := by
  unfold target_sink
  simp only [if_true]
  rcases hd : get_default_sink w with ⟨_ | default_sink, t⟩
  · have ht := get_default_sink_trace w
    rw [hd] at ht
    simp only at ht
    subst ht
    rfl
  · have ht := get_default_sink_trace w
    rw [hd] at ht
    simp only at ht
    subst ht
    dsimp only
    split <;> simp_all

theorem target_sink_events (w : World) (sink_name : CStr) (hear_audio : Bool) :
    ∀ e ∈ (target_sink w sink_name hear_audio).2,
      is_server_request e = true ∨ e = Event.sleep 1 := by
  cases hear_audio
  · simp [target_sink_silent]
  · rw [target_sink_hearing]
    cases (get_default_sink w).1 with
    | none => simp [is_server_request]
    | some default_sink =>
      simp only [create_combined_sink_trace]
      split <;> simp [is_server_request]

theorem initialize_pa_established (w : World) (pa : PAConnection)
    (h : (initialize_pa w PAConnection.null).2 = some (true, pa)) :
    initialize_pa w PAConnection.null = (connect_events, some (true, pa)) ∧
      cleanup_pa pa = cleanup_events := by
  have hp : initialize_pa w PAConnection.null =
      ((initialize_pa w PAConnection.null).1, some (true, pa)) := by
    rw [← h]
  obtain ⟨ht, hm, hc⟩ := initialize_pa_success w _ pa hp
  refine ⟨by rw [hp, ht]; rfl, ?_⟩
  simp [cleanup_pa, hm, hc, cleanup_events]

/-- The run of `play_audio` once the connection is established. -/
theorem play_audio_connected (w : World) (file_name sink_name : CStr)
    (hear_audio loop_playback : Bool) (bound : Nat) (pa : PAConnection)
    (h : (initialize_pa w PAConnection.null).2 = some (true, pa)) :
    play_audio w file_name sink_name hear_audio loop_playback bound =
      if w.pipe then
        { trace := connect_events ++ (ensure_virtual_sink w sink_name).2 ++
            (target_sink w sink_name hear_audio).2 ++ [Event.pipe true] ++
            (playback_loop w file_name (target_sink w sink_name hear_audio).1
              loop_playback bound 0).1 ++
            (if (playback_loop w file_name (target_sink w sink_name hear_audio).1
              loop_playback bound 0).2 = LoopExit.still_running then [] else cleanup_events)
          returned := decide ((playback_loop w file_name
            (target_sink w sink_name hear_audio).1 loop_playback bound 0).2 ≠
              LoopExit.still_running) }
      else
        { trace := connect_events ++ (ensure_virtual_sink w sink_name).2 ++
            (target_sink w sink_name hear_audio).2 ++ [Event.pipe false] ++ cleanup_events
          returned := true } := by
  obtain ⟨hi, hc⟩ := initialize_pa_established w pa h
  unfold play_audio
  simp only [hi, hc]
  rcases target_sink w sink_name hear_audio with ⟨target, t2⟩
  cases w.pipe
  · simp
  · simp only [Bool.not_true, if_true]
    rcases playback_loop w file_name target loop_playback bound 0 with ⟨t3, how⟩
    cases how <;> simp

/-- The run of `play_audio` when `initialize_pa` returns false. -/
theorem play_audio_not_connected (w : World) (file_name sink_name : CStr)
    (hear_audio loop_playback : Bool) (bound : Nat) (pa : PAConnection)
    (h : (initialize_pa w PAConnection.null).2 = some (false, pa)) :
    play_audio w file_name sink_name hear_audio loop_playback bound =
      { trace := (initialize_pa w PAConnection.null).1, returned := true } := by
  unfold play_audio
  dsimp only
  rcases hi : initialize_pa w PAConnection.null with ⟨t0, r⟩
  rw [hi] at h
  simp only at h
  subst h
  rfl

/-- Every event of a run of `play_audio` comes from one of its parts. -/
theorem play_audio_events (w : World) (file_name sink_name : CStr)
    (hear_audio loop_playback : Bool) (bound : Nat) :
    ∀ e ∈ (play_audio w file_name sink_name hear_audio loop_playback bound).trace,
      is_connection_event e = true ∨
      e ∈ (ensure_virtual_sink w sink_name).2 ∨
      e ∈ (target_sink w sink_name hear_audio).2 ∨
      (∃ ok, e = Event.pipe ok) ∨
      e ∈ (playback_loop w file_name (target_sink w sink_name hear_audio).1
        loop_playback bound 0).1 := by
  intro e he
  rcases hr : (initialize_pa w PAConnection.null).2 with _ | ⟨_ | _, pa⟩
  · left
    apply initialize_pa_events w PAConnection.null
    unfold play_audio at he
    dsimp only at he
    rcases hi : initialize_pa w PAConnection.null with ⟨t0, r⟩
    rw [hi] at hr he
    simp only at hr
    subst hr
    exact he
  · left
    rw [play_audio_not_connected _ _ _ _ _ _ pa hr] at he
    exact initialize_pa_events w PAConnection.null e he
  · rw [play_audio_connected _ _ _ _ _ _ pa hr] at he
    have hconn : ∀ x ∈ connect_events, is_connection_event x = true := by decide
    have hclean : ∀ x ∈ cleanup_events, is_connection_event x = true := by decide
    split at he
    · simp only [List.mem_append, List.mem_singleton] at he
      rcases he with ((((he | he) | he) | he) | he) | he
      · exact Or.inl (hconn e he)
      · exact Or.inr (Or.inl he)
      · exact Or.inr (Or.inr (Or.inl he))
      · exact Or.inr (Or.inr (Or.inr (Or.inl ⟨true, he⟩)))
      · exact Or.inr (Or.inr (Or.inr (Or.inr he)))
      · split at he
        · cases he
        · exact Or.inl (hclean e he)
    · simp only [List.mem_append, List.mem_singleton] at he
      rcases he with (((he | he) | he) | he) | he
      · exact Or.inl (hconn e he)
      · exact Or.inr (Or.inl he)
      · exact Or.inr (Or.inr (Or.inl he))
      · exact Or.inr (Or.inr (Or.inr (Or.inl ⟨false, he⟩)))
      · exact Or.inl (hclean e he)

/-- Every transcoder invocation of a run of `play_audio` is `ffmpeg` with the fixed
argument vector, its last argument the target worked out by `target_sink`. -/
theorem play_audio_invocation (w : World) (file_name sink_name : CStr)
    (hear_audio loop_playback : Bool) (bound : Nat) (file : CStr) (argv : List CStr)
    (h : Event.execlp file argv ∈
      (play_audio w file_name sink_name hear_audio loop_playback bound).trace) :
    file = "ffmpeg".toList ∧
      argv = transcoder_argv file_name (target_sink w sink_name hear_audio).1 := by
  rcases play_audio_events _ _ _ _ _ _ _ h with h | h | h | h | h
  · cases h
  · rcases (ensure_virtual_sink_events _ _ _ h).1 with h' | h' <;> cases h'
  · rcases target_sink_events _ _ _ _ h with h' | h' <;> cases h'
  · obtain ⟨_, h'⟩ := h
    cases h'
  · exact (playback_loop_events _ _ _ _ _ _ _ h).2 _ _ rfl

theorem transcoder_argv_getLast (file_name target : CStr) :
    (transcoder_argv file_name target).getLast? = some target := by
  simp [transcoder_argv]

/-- The first pass of the playback loop: with a positive bound and a successful first
`fork` the transcoder is invoked. -/
theorem playback_loop_first (w : World) (file_name target : CStr) (loop_playback : Bool)
    (bound : Nat) (hf : w.fork 0 = true) (hb : 0 < bound) :
    Event.execlp "ffmpeg".toList (transcoder_argv file_name target) ∈
      (playback_loop w file_name target loop_playback bound 0).1 := by
  obtain ⟨n, rfl⟩ : ∃ n, bound = n + 1 := ⟨bound - 1, by omega⟩
  unfold playback_loop
  simp only [hf, Bool.not_true, Bool.false_eq_true, if_false]
  cases loop_playback <;> simp [playback_pass]

theorem no_combine_load_without_hearing (w : World) (file_name sink_name : CStr)
    (loop_playback : Bool) (bound : Nat) (argument : CStr) (issued : Bool) :
    Event.load_module "module-combine-sink".toList argument issued ∉
      (play_audio w file_name sink_name false loop_playback bound).trace := by
  intro h
  rcases play_audio_events _ _ _ _ _ _ _ h with h | h | h | h | h
  · cases h
  · exact (ensure_virtual_sink_events _ _ _ h).2.2 argument issued rfl
  · rw [target_sink_silent] at h
    cases h
  · obtain ⟨_, h'⟩ := h
    cases h'
  · have h' := (playback_loop_events _ _ _ _ _ _ _ h).1
    cases h'

/-! ## Claims on the playback runner -/

/-- C5: in a run of `play_audio` with `hear_audio` false no `get_server_info` request is
made (`get_default_sink`), no `module-combine-sink` load is requested
(`create_combined_sink`), and every transcoder invocation has the sink name given to
`play_audio` as its target, the last argument. -/
theorem play_audio_without_hearing (w : World) (file_name sink_name : CStr)
    (loop_playback : Bool) (bound : Nat) :
    (∀ issued, Event.get_server_info issued ∉
      (play_audio w file_name sink_name false loop_playback bound).trace) ∧
    (∀ argument issued, Event.load_module "module-combine-sink".toList argument issued ∉
      (play_audio w file_name sink_name false loop_playback bound).trace) ∧
    (∀ file argv, Event.execlp file argv ∈
      (play_audio w file_name sink_name false loop_playback bound).trace →
        argv = transcoder_argv file_name sink_name ∧ argv.getLast? = some sink_name) := by
  refine ⟨fun issued h => ?_,
    fun argument issued => no_combine_load_without_hearing _ _ _ _ _ argument issued,
    fun file argv h => ?_⟩
  · rcases play_audio_events _ _ _ _ _ _ _ h with h | h | h | h | h
    · cases h
    · exact (ensure_virtual_sink_events _ _ _ h).2.1 issued rfl
    · rw [target_sink_silent] at h
      cases h
    · obtain ⟨_, h'⟩ := h
      cases h'
    · have h' := (playback_loop_events _ _ _ _ _ _ _ h).1
      cases h'
  · have h' := (play_audio_invocation _ _ _ _ _ _ _ _ h).2
    rw [target_sink_silent] at h'
    exact ⟨h', by rw [h', transcoder_argv_getLast]⟩

theorem play_audio_without_hearing_witness :
    (∀ issued, Event.get_server_info issued ∉
      (play_audio world_with_default_sink "song.mp3".toList "virtual-mic".toList false
        false 1).trace) ∧
    (∀ argument issued, Event.load_module "module-combine-sink".toList argument issued ∉
      (play_audio world_with_default_sink "song.mp3".toList "virtual-mic".toList false
        false 1).trace) ∧
    (∀ file argv, Event.execlp file argv ∈
      (play_audio world_with_default_sink "song.mp3".toList "virtual-mic".toList false
        false 1).trace →
        argv = transcoder_argv "song.mp3".toList "virtual-mic".toList ∧
          argv.getLast? = some "virtual-mic".toList) :=
  play_audio_without_hearing world_with_default_sink _ _ false 1

/-- C3 as stated fails: the connection is established, `hear_audio` is true and the
server reports the default sink `alsa_output.pci-0000_00_1f.3`, but the load of
`module-combine-sink` returns no operation, and the one transcoder invocation has the
original sink name `virtual-mic` as its target. -/
theorem play_audio_combine_refused :
    connection_established world_combine_refused ∧
    (get_default_sink world_combine_refused).1 =
      some "alsa_output.pci-0000_00_1f.3".toList ∧
    invocations (play_audio world_combine_refused "song.mp3".toList "virtual-mic".toList
      true false 1).trace =
      [("ffmpeg".toList, ["ffmpeg".toList, "-re".toList, "-i".toList, "song.mp3".toList,
        "-f".toList, "pulse".toList, "-ac".toList, "2".toList, "virtual-mic".toList])] :=
  ⟨⟨{ mainloop := true, mainloop_api := true, context := true, ready := 1 }, by decide⟩,
    by decide, by decide⟩

/-- C3, amended: when the connection is established, `hear_audio` is true,
`get_default_sink` returns a default sink name and `create_combined_sink` reports
success, every transcoder invocation has `combined-output` as its target, the last
argument, which is not the sink name given to `play_audio` unless that name is
`combined-output` itself; and there is such an invocation as soon as `pipe` and the first
`fork` succeed. -/
theorem play_audio_combined_target (w : World) (file_name sink_name default_sink : CStr)
    (loop_playback : Bool) (bound : Nat) (hc : connection_established w)
    (hd : (get_default_sink w).1 = some default_sink)
    (hs : (create_combined_sink w sink_name default_sink).1 ≠ 0) :
    (∀ file argv, Event.execlp file argv ∈
      (play_audio w file_name sink_name true loop_playback bound).trace →
        argv = transcoder_argv file_name "combined-output".toList ∧
        argv.getLast? = some "combined-output".toList ∧
        (sink_name ≠ "combined-output".toList → argv.getLast? ≠ some sink_name)) ∧
    (w.pipe = true → w.fork 0 = true → 0 < bound →
      Event.execlp "ffmpeg".toList (transcoder_argv file_name "combined-output".toList) ∈
        (play_audio w file_name sink_name true loop_playback bound).trace) := by
  have ht : (target_sink w sink_name true).1 = "combined-output".toList := by
    rw [target_sink_hearing, hd]
    simp only [hs, ne_eq, not_false_eq_true, if_true]
  refine ⟨fun file argv h => ?_, fun hp hf hb => ?_⟩
  · have h' := (play_audio_invocation _ _ _ _ _ _ _ _ h).2
    rw [ht] at h'
    subst h'
    refine ⟨rfl, transcoder_argv_getLast _ _, fun hne he => ?_⟩
    rw [transcoder_argv_getLast] at he
    exact hne (Option.some.inj he).symm
  · obtain ⟨pa, hpa⟩ := hc
    rw [play_audio_connected _ _ _ _ _ _ pa hpa, if_pos hp, ht]
    simp only [List.mem_append]
    exact Or.inl (Or.inr (playback_loop_first _ _ _ _ _ hf hb))

theorem play_audio_combined_target_witness :
    connection_established world_with_default_sink ∧
    (get_default_sink world_with_default_sink).1 =
      some "alsa_output.pci-0000_00_1f.3".toList ∧
    (create_combined_sink world_with_default_sink "virtual-mic".toList
      "alsa_output.pci-0000_00_1f.3".toList).1 ≠ 0 ∧
    Event.execlp "ffmpeg".toList
      (transcoder_argv "song.mp3".toList "combined-output".toList) ∈
      (play_audio world_with_default_sink "song.mp3".toList "virtual-mic".toList true
        false 1).trace :=
  ⟨⟨{ mainloop := true, mainloop_api := true, context := true, ready := 1 }, by decide⟩,
    by decide, by decide,
    (play_audio_combined_target world_with_default_sink "song.mp3".toList
      "virtual-mic".toList "alsa_output.pci-0000_00_1f.3".toList false 1
      ⟨{ mainloop := true, mainloop_api := true, context := true, ready := 1 }, by decide⟩
      (by decide) (by decide)).2 (by decide) (by decide) (by decide)⟩

/-! ## The playback loop -/

theorem invocations_eq_nil (t : List Event)
    (h : ∀ e ∈ t, is_process_event e = false) : invocations t = [] := by
  rw [List.eq_nil_iff_forall_not_mem]
  rintro ⟨file, argv⟩ hm
  have h' := h _ ((mem_invocations t file argv).1 hm)
  cases h'

theorem invocations_ensure_virtual_sink (w : World) (sink_name : CStr) :
    invocations (ensure_virtual_sink w sink_name).2 = [] := by
  apply invocations_eq_nil
  intro e he
  rcases (ensure_virtual_sink_events w sink_name e he).1 with h | h
  · cases e <;> first | rfl | cases h
  · subst h
    rfl

theorem invocations_target_sink (w : World) (sink_name : CStr) (hear_audio : Bool) :
    invocations (target_sink w sink_name hear_audio).2 = [] := by
  apply invocations_eq_nil
  intro e he
  rcases target_sink_events w sink_name hear_audio e he with h | h
  · cases e <;> first | rfl | cases h
  · subst h
    rfl

theorem playback_loop_once (w : World) (file_name target : CStr) (bound i : Nat)
    (hf : w.fork i = true) :
    playback_loop w file_name target false (bound + 1) i =
      (playback_pass w file_name target i, LoopExit.completed) := by
  unfold playback_loop
  simp [hf]

theorem invocations_playback_pass (w : World) (file_name target : CStr) (i : Nat) :
    invocations (playback_pass w file_name target i) =
      [("ffmpeg".toList, transcoder_argv file_name target)] :=
  rfl

theorem playback_loop_forever (w : World) (file_name target : CStr)
    (hf : ∀ i, w.fork i = true) (bound i : Nat) :
    (playback_loop w file_name target true bound i).2 = LoopExit.still_running ∧
      invocations (playback_loop w file_name target true bound i).1 =
        List.replicate bound ("ffmpeg".toList, transcoder_argv file_name target) ∧
      (playback_loop w file_name target true (bound + 1) i).1 =
        (playback_loop w file_name target true bound i).1 ++
          playback_pass w file_name target (i + bound) := by
  induction bound generalizing i with
  | zero =>
    refine ⟨rfl, rfl, ?_⟩
    unfold playback_loop
    simp [hf, playback_loop]
  | succ bound ih =>
    obtain ⟨h1, h2, h3⟩ := ih (i + 1)
    have hstep : ∀ b, playback_loop w file_name target true (b + 1) i =
        (playback_pass w file_name target i ++
          (playback_loop w file_name target true b (i + 1)).1,
          (playback_loop w file_name target true b (i + 1)).2) := by
      intro b
      rw [playback_loop]
      simp [hf]
    refine ⟨?_, ?_, ?_⟩
    · rw [hstep, h1]
    · rw [hstep, invocations_append, h2, invocations_playback_pass]
      rfl
    · rw [hstep (bound + 1), hstep bound, h3, List.append_assoc]
      have : i + 1 + bound = i + (bound + 1) := by omega
      rw [this]

/-- C4: when the connection is established and neither `pipe` nor any `fork` fails, a run
with `loop_playback` false invokes the transcoder exactly once and then returns, ending
with `cleanup_pa`; and a run with `loop_playback` true does not return, however large the
bound on its iterations: within `bound` iterations it has invoked the transcoder exactly
`bound` times with the same command, and one iteration more adds, behind the wait for
the last exit, whatever its status, one more pass with that command. -/
theorem play_audio_loop (w : World) (file_name sink_name : CStr) (hear_audio : Bool)
    (hc : connection_established w) (hp : w.pipe = true) (hf : ∀ i, w.fork i = true) :
    (∀ bound, 0 < bound →
      (play_audio w file_name sink_name hear_audio false bound).returned = true ∧
      invocations (play_audio w file_name sink_name hear_audio false bound).trace =
        [("ffmpeg".toList,
          transcoder_argv file_name (target_sink w sink_name hear_audio).1)] ∧
      ∃ before, (play_audio w file_name sink_name hear_audio false bound).trace =
        before ++ playback_pass w file_name (target_sink w sink_name hear_audio).1 0 ++
          cleanup_events) ∧
    (∀ bound,
      (play_audio w file_name sink_name hear_audio true bound).returned = false ∧
      invocations (play_audio w file_name sink_name hear_audio true bound).trace =
        List.replicate bound ("ffmpeg".toList,
          transcoder_argv file_name (target_sink w sink_name hear_audio).1) ∧
      (play_audio w file_name sink_name hear_audio true (bound + 1)).trace =
        (play_audio w file_name sink_name hear_audio true bound).trace ++
          playback_pass w file_name (target_sink w sink_name hear_audio).1 bound) := by
  obtain ⟨pa, hpa⟩ := hc
  have hce : invocations connect_events = [] := rfl
  have hcl : invocations cleanup_events = [] := rfl
  have hpi : invocations [Event.pipe true] = [] := rfl
  refine ⟨fun bound hb => ?_, fun bound => ?_⟩
  · obtain ⟨n, rfl⟩ : ∃ n, bound = n + 1 := ⟨bound - 1, by omega⟩
    rw [play_audio_connected _ _ _ _ _ _ pa hpa, if_pos hp,
      playback_loop_once _ _ _ _ _ (hf 0)]
    dsimp only
    have hne : ¬ (LoopExit.completed = LoopExit.still_running) := by decide
    rw [if_neg hne]
    refine ⟨by simp, ?_, ⟨_, rfl⟩⟩
    simp only [invocations_append, hce, hpi, invocations_ensure_virtual_sink,
      invocations_target_sink, invocations_playback_pass]
    simp [hcl]
  · obtain ⟨h1, h2, h3⟩ := playback_loop_forever w file_name
      (target_sink w sink_name hear_audio).1 hf bound 0
    obtain ⟨h1', -, -⟩ := playback_loop_forever w file_name
      (target_sink w sink_name hear_audio).1 hf (bound + 1) 0
    rw [play_audio_connected _ _ _ _ _ _ pa hpa, play_audio_connected _ _ _ _ _ _ pa hpa,
      if_pos hp, if_pos hp]
    simp only [h1, h1', if_true]
    refine ⟨by simp, ?_, ?_⟩
    · simp only [invocations_append, hce, hpi, invocations_ensure_virtual_sink,
        invocations_target_sink, h2]
      simp [invocations]
    · rw [h3]
      simp

theorem play_audio_loop_witness :
    (play_audio plain_world "song.mp3".toList "virtual-mic".toList false false 1).returned
      = true ∧
    invocations
      (play_audio plain_world "song.mp3".toList "virtual-mic".toList false false 1).trace =
      [("ffmpeg".toList, transcoder_argv "song.mp3".toList "virtual-mic".toList)] ∧
    (play_audio plain_world "song.mp3".toList "virtual-mic".toList false true 3).returned
      = false ∧
    invocations
      (play_audio plain_world "song.mp3".toList "virtual-mic".toList false true 3).trace =
      List.replicate 3
        ("ffmpeg".toList, transcoder_argv "song.mp3".toList "virtual-mic".toList) :=
  have h := play_audio_loop plain_world "song.mp3".toList "virtual-mic".toList false
    ⟨{ mainloop := true, mainloop_api := true, context := true, ready := 1 }, by decide⟩
    rfl (fun _ => rfl)
  ⟨(h.1 1 (by decide)).1, (h.1 1 (by decide)).2.1, (h.2 3).1, (h.2 3).2.1⟩

/-! ## Teardown -/

/-- The events of an `initialize_pa` that returns false: one of its five ways out. -/
theorem initialize_pa_failed (w : World) (pa : PAConnection)
    (h : (initialize_pa w PAConnection.null).2 = some (false, pa)) :
    (initialize_pa w PAConnection.null).1 = [Event.mainloop_new false] ∨
    (initialize_pa w PAConnection.null).1 =
      [Event.mainloop_new true, Event.mainloop_get_api false, Event.mainloop_free] ∨
    (initialize_pa w PAConnection.null).1 =
      [Event.mainloop_new true, Event.mainloop_get_api true, Event.context_new false,
        Event.mainloop_free] ∨
    (initialize_pa w PAConnection.null).1 =
      [Event.mainloop_new true, Event.mainloop_get_api true, Event.context_new true,
        Event.context_connect false, Event.context_unref, Event.mainloop_free] ∨
    (initialize_pa w PAConnection.null).1 =
      [Event.mainloop_new true, Event.mainloop_get_api true, Event.context_new true,
        Event.context_connect true, Event.context_unref, Event.mainloop_free] := by
  revert h
  unfold initialize_pa
  dsimp only
  repeat' split
  all_goals simp

theorem not_mem_before_cleanup (w : World) (sink_name : CStr) (hear_audio : Bool)
    (rest : List Event) (hrest : ∀ e ∈ rest, is_process_event e = true) :
    ∀ e ∈ cleanup_events,
      e ∉ connect_events ++ (ensure_virtual_sink w sink_name).2 ++
        (target_sink w sink_name hear_audio).2 ++ rest := by
  have hother : ∀ e, is_connection_event e = true →
      ¬ (is_server_request e = true ∨ e = Event.sleep 1) ∧ is_process_event e ≠ true := by
    intro e he
    cases e <;> simp [is_connection_event, is_server_request, is_process_event] at he ⊢
  have hconn : ∀ e ∈ cleanup_events, is_connection_event e = true ∧ e ∉ connect_events := by
    decide
  intro e he hm
  obtain ⟨h1, h2⟩ := hconn e he
  obtain ⟨h3, h4⟩ := hother e h1
  simp only [List.mem_append] at hm
  rcases hm with ((hm | hm) | hm) | hm
  · exact h2 hm
  · exact h3 (ensure_virtual_sink_events _ _ _ hm).1
  · exact h3 (target_sink_events _ _ _ _ hm)
  · exact h4 (hrest e hm)

/-- C6: when `initialize_pa` succeeds and `play_audio` returns, the trace ends with the
events of `cleanup_pa`, which disconnects and releases the context and frees the main
loop, and none of these events occurs before: `cleanup_pa` is called once and nothing
follows it.  When `initialize_pa` fails, `play_audio` returns with the events of
`initialize_pa` alone, none of which is a request to the audio server or a call for a
process, and each handle created has been released: the main loop is freed as often as
one was created, the context unreferenced as often as one was created. -/
theorem play_audio_teardown (w : World) (file_name sink_name : CStr)
    (hear_audio loop_playback : Bool) (bound : Nat) (pa : PAConnection) :
    ((initialize_pa w PAConnection.null).2 = some (true, pa) →
      (play_audio w file_name sink_name hear_audio loop_playback bound).returned = true →
      cleanup_pa pa = cleanup_events ∧
      ∃ before,
        (play_audio w file_name sink_name hear_audio loop_playback bound).trace =
          before ++ cleanup_pa pa ∧
        ∀ e ∈ cleanup_events, e ∉ before) ∧
    ((initialize_pa w PAConnection.null).2 = some (false, pa) →
      (play_audio w file_name sink_name hear_audio loop_playback bound).returned = true ∧
      (play_audio w file_name sink_name hear_audio loop_playback bound).trace =
        (initialize_pa w PAConnection.null).1 ∧
      (∀ e ∈ (play_audio w file_name sink_name hear_audio loop_playback bound).trace,
        is_server_request e = false ∧ is_process_event e = false) ∧
      (initialize_pa w PAConnection.null).1.count (Event.mainloop_new true) =
        (initialize_pa w PAConnection.null).1.count Event.mainloop_free ∧
      (initialize_pa w PAConnection.null).1.count (Event.context_new true) =
        (initialize_pa w PAConnection.null).1.count Event.context_unref) := by
  refine ⟨fun hpa hret => ?_, fun hpa => ?_⟩
  · have hcl := (initialize_pa_established w pa hpa).2
    refine ⟨hcl, ?_⟩
    rw [play_audio_connected _ _ _ _ _ _ pa hpa] at hret ⊢
    rw [hcl]
    cases hp : w.pipe
    · rw [if_neg (by simp)]
      exact ⟨_, rfl, not_mem_before_cleanup _ _ _ [Event.pipe false]
        (by simp [is_process_event])⟩
    · rw [hp, if_pos rfl] at hret
      rw [if_pos rfl]
      simp only [decide_eq_true_eq] at hret
      rw [if_neg hret]
      refine ⟨_, rfl, ?_⟩
      rw [List.append_assoc _ [Event.pipe true]]
      apply not_mem_before_cleanup
      intro e he
      rw [List.mem_append, List.mem_singleton] at he
      rcases he with rfl | he
      · rfl
      · exact (playback_loop_events _ _ _ _ _ _ _ he).1
  · rw [play_audio_not_connected _ _ _ _ _ _ pa hpa]
    refine ⟨rfl, rfl, ?_, ?_⟩
    · intro e he
      have h := initialize_pa_events w PAConnection.null e he
      cases e <;> first | exact ⟨rfl, rfl⟩ | cases h
    · rcases initialize_pa_failed w pa hpa with h | h | h | h | h <;> rw [h] <;> decide

theorem play_audio_teardown_witness :
    ((play_audio world_pipe_failed "song.mp3".toList "virtual-mic".toList false false
        1).returned = true ∧
      ∃ before,
        (play_audio world_pipe_failed "song.mp3".toList "virtual-mic".toList false false
          1).trace = before ++ cleanup_events ∧
        ∀ e ∈ cleanup_events, e ∉ before) ∧
    ((play_audio world_fork_failed "song.mp3".toList "virtual-mic".toList false true
        5).returned = true ∧
      ∃ before,
        (play_audio world_fork_failed "song.mp3".toList "virtual-mic".toList false true
          5).trace = before ++ cleanup_events ∧
        ∀ e ∈ cleanup_events, e ∉ before) ∧
    ((play_audio plain_world "song.mp3".toList "virtual-mic".toList false false
        1).returned = true ∧
      ∃ before,
        (play_audio plain_world "song.mp3".toList "virtual-mic".toList false false
          1).trace = before ++ cleanup_events ∧
        ∀ e ∈ cleanup_events, e ∉ before) ∧
    ((play_audio world_connection_failed "song.mp3".toList "virtual-mic".toList false
        false 1).trace =
      [Event.mainloop_new true, Event.mainloop_get_api true, Event.context_new true,
        Event.context_connect true, Event.context_unref, Event.mainloop_free]) :=
  ⟨⟨by decide,
    ((play_audio_teardown world_pipe_failed "song.mp3".toList "virtual-mic".toList false
      false 1 { mainloop := true, mainloop_api := true, context := true, ready := 1 }).1
      (by decide) (by decide)).2⟩,
    ⟨by decide,
    ((play_audio_teardown world_fork_failed "song.mp3".toList "virtual-mic".toList false
      true 5 { mainloop := true, mainloop_api := true, context := true, ready := 1 }).1
      (by decide) (by decide)).2⟩,
    ⟨by decide,
    ((play_audio_teardown plain_world "song.mp3".toList "virtual-mic".toList false
      false 1 { mainloop := true, mainloop_api := true, context := true, ready := 1 }).1
      (by decide) (by decide)).2⟩,
    ((play_audio_teardown world_connection_failed "song.mp3".toList "virtual-mic".toList
      false false 1 { mainloop := true, mainloop_api := true, context := true, ready := 2 }).2
      (by decide)).2.1.trans (by decide)⟩

/-! ## Interactive front-end -/

theorem main_rejected (w : World) (stdin : List Char) (bound : Nat)
    (h : input_rejected w stdin) :
    (main w stdin bound).status = some 1 ∧ (main w stdin bound).call = none ∧
      ∀ e ∈ (main w stdin bound).trace, ∃ path ok, e = Event.access path ok := by
  unfold input_rejected at h
  unfold main
  rcases h1 : fgets MAX_PATH_LENGTH stdin with _ | ⟨stored, rest⟩
  · simp
  · rw [h1] at h
    dsimp only at h ⊢
    cases ha : w.access (strip_newline stored)
    · simp
    · rw [ha] at h
      rcases h with h | h
      · cases h
      · simp [h]

theorem main_accepted (w : World) (stdin : List Char) (bound : Nat)
    (h : ¬ input_rejected w stdin) :
    ∃ c, (main w stdin bound).call = some c ∧
      (main w stdin bound).status =
        (if (play_audio w c.file_name c.sink_name c.hear_audio c.loop_playback
          bound).returned then some 0 else none) ∧
      (main w stdin bound).trace = Event.access c.file_name true ::
        (play_audio w c.file_name c.sink_name c.hear_audio c.loop_playback bound).trace := by
  unfold input_rejected at h
  unfold main
  rcases h1 : fgets MAX_PATH_LENGTH stdin with _ | ⟨stored, rest⟩
  · rw [h1] at h
    exact absurd trivial h
  · rw [h1] at h
    dsimp only at h ⊢
    cases ha : w.access (strip_newline stored)
    · rw [ha] at h
      exact absurd (Or.inl rfl) h
    · rcases h2 : fgets MAX_PATH_LENGTH rest with _ | ⟨stored2, rest2⟩
      · rw [h2] at h
        exact absurd (Or.inr rfl) h
      · simp only [Bool.not_true, Bool.false_eq_true, if_false]
        rcases fgets 10 rest2 with _ | ⟨response, rest3⟩
        · exact ⟨_, rfl, rfl, rfl⟩
        · exact ⟨_, rfl, rfl, rfl⟩

/-- C7 as stated fails: on the input `song.mp3`, `virtual-mic` and then the end of the
stream, the read of the hear-audio answer fails, and `main` still calls `play_audio`,
with both flags false, and returns 0. -/
theorem main_survives_missing_answers :
    fgets MAX_PATH_LENGTH "song.mp3\nvirtual-mic\n".toList =
      some ("song.mp3\n".toList, "virtual-mic\n".toList) ∧
    fgets MAX_PATH_LENGTH "virtual-mic\n".toList = some ("virtual-mic\n".toList, []) ∧
    fgets 10 [] = none ∧
    (main plain_world "song.mp3\nvirtual-mic\n".toList 1).status = some 0 ∧
    (main plain_world "song.mp3\nvirtual-mic\n".toList 1).call =
      some ⟨"song.mp3".toList, "virtual-mic".toList, false, false⟩ := by
  refine ⟨by decide, by decide, by decide, by decide, by decide⟩

theorem main_blank_sink (w : World) (bound : Nat)
    (hacc : w.access "song.mp3".toList = true) :
    main w "song.mp3\n\nn\nn\n".toList bound =
      { status := if (play_audio w "song.mp3".toList "virtual-mic".toList false false
          bound).returned then some 0 else none
        call := some ⟨"song.mp3".toList, "virtual-mic".toList, false, false⟩
        trace := Event.access "song.mp3".toList true ::
          (play_audio w "song.mp3".toList "virtual-mic".toList false false bound).trace } := by
  have h1 : fgets MAX_PATH_LENGTH "song.mp3\n\nn\nn\n".toList =
      some ("song.mp3\n".toList, "\nn\nn\n".toList) := by decide
  have h2 : fgets MAX_PATH_LENGTH "\nn\nn\n".toList = some ("\n".toList, "n\nn\n".toList) := by
    decide
  have h3 : fgets 10 "n\nn\n".toList = some ("n\n".toList, "n\n".toList) := by decide
  have h4 : fgets 10 "n\n".toList = some ("n\n".toList, []) := by decide
  have s1 : strip_newline "song.mp3\n".toList = "song.mp3".toList := by decide
  have s2 : strip_newline "\n".toList = [] := by decide
  have s3 : says_yes (strip_newline "n\n".toList) = false := by decide
  unfold main
  rw [h1]
  dsimp only
  rw [s1, hacc, h2]
  dsimp only
  rw [s2, h3]
  dsimp only
  rw [h4, s3]
  rfl

theorem main_flags (w : World) (stdin : List Char) (bound : Nat)
    (s1 r1 s2 r2 : List Char) (h1 : fgets MAX_PATH_LENGTH stdin = some (s1, r1))
    (ha : w.access (strip_newline s1) = true)
    (h2 : fgets MAX_PATH_LENGTH r1 = some (s2, r2)) :
    ∃ c, (main w stdin bound).call = some c ∧
      (fgets 10 r2 = none → c.hear_audio = false ∧ c.loop_playback = false) ∧
      (∀ response r3, fgets 10 r2 = some (response, r3) → fgets 10 r3 = none →
        c.loop_playback = false) := by
  unfold main
  rw [h1]
  dsimp only
  rw [ha, h2]
  simp only [Bool.not_true, Bool.false_eq_true, if_false]
  rcases h3 : fgets 10 r2 with _ | ⟨response, r3⟩
  · dsimp only
    rw [h3]
    exact ⟨_, rfl, fun _ => ⟨rfl, rfl⟩, fun _ _ h => by cases h⟩
  · dsimp only
    refine ⟨_, rfl, fun h => (by cases h), fun _ _ h h4 => ?_⟩
    cases h
    dsimp only
    rw [h4]

/-! ## Claims on the front-end and the argument vector -/

/-- C7, amended: when the read of the audio file path fails, or that path is not
readable, or the read of the sink name fails, `main` returns 1 and never calls
`play_audio` (its trace holds no invocation and no request to the server).  In every
other case, also when the read of the hear-audio answer or of the loop answer fails,
`main` calls `play_audio` and its status is 0 as soon as `play_audio` returns, never 1;
an answer whose read fails leaves its flag false. -/
theorem main_exit_status (w : World) (stdin : List Char) (bound : Nat) :
    (input_rejected w stdin →
      (main w stdin bound).status = some 1 ∧ (main w stdin bound).call = none ∧
      invocations (main w stdin bound).trace = [] ∧
      ∀ e ∈ (main w stdin bound).trace, is_server_request e = false) ∧
    (¬ input_rejected w stdin →
      ∃ c, (main w stdin bound).call = some c ∧
        (main w stdin bound).status =
          (if (play_audio w c.file_name c.sink_name c.hear_audio c.loop_playback
            bound).returned then some 0 else none) ∧
        (main w stdin bound).status ≠ some 1) ∧
    (∀ s1 r1 s2 r2, fgets MAX_PATH_LENGTH stdin = some (s1, r1) →
      w.access (strip_newline s1) = true → fgets MAX_PATH_LENGTH r1 = some (s2, r2) →
      ∃ c, (main w stdin bound).call = some c ∧
        (fgets 10 r2 = none → c.hear_audio = false ∧ c.loop_playback = false) ∧
        (∀ response r3, fgets 10 r2 = some (response, r3) → fgets 10 r3 = none →
          c.loop_playback = false)) := by
  refine ⟨fun h => ?_, fun h => ?_, fun s1 r1 s2 r2 h1 ha h2 =>
    main_flags w stdin bound s1 r1 s2 r2 h1 ha h2⟩
  · obtain ⟨hs, hc, ht⟩ := main_rejected w stdin bound h
    refine ⟨hs, hc, ?_, fun e he => ?_⟩
    · apply invocations_eq_nil
      intro e he
      obtain ⟨_, _, rfl⟩ := ht e he
      rfl
    · obtain ⟨_, _, rfl⟩ := ht e he
      rfl
  · obtain ⟨c, hc, hs, -⟩ := main_accepted w stdin bound h
    refine ⟨c, hc, hs, ?_⟩
    rw [hs]
    split <;> simp

theorem main_exit_status_witness :
    ((main plain_world [] 1).status = some 1 ∧ (main plain_world [] 1).call = none) ∧
    (main plain_world "song.mp3\nvirtual-mic\ny\n".toList 1).status = some 0 ∧
    (main plain_world "song.mp3\nvirtual-mic\ny\n".toList 1).call =
      some ⟨"song.mp3".toList, "virtual-mic".toList, true, false⟩ :=
  ⟨⟨((main_exit_status plain_world [] 1).1 True.intro).1,
      ((main_exit_status plain_world [] 1).1 True.intro).2.1⟩,
    by decide, by decide⟩

/-- C8: every transcoder invocation of `play_audio` runs `ffmpeg` with the argument vector
`ffmpeg -re -i file -f pulse -ac 2 target`, the file path as given and the target worked
out by `play_audio` last.  On the input `song.mp3`, a blank sink name and two answers
`n`, in a world where the file is readable, the connection is established and `pipe` and
`fork` succeed, `main` calls `play_audio` with the sink name `virtual-mic` and both flags
false, the session makes one invocation, whose target is `virtual-mic`, requests no load
of `module-combine-sink`, and `main` returns 0. -/
theorem transcoder_argument_vector (w : World) (file_name sink_name : CStr)
    (hear_audio loop_playback : Bool) (bound : Nat) :
    (∀ file argv, Event.execlp file argv ∈
      (play_audio w file_name sink_name hear_audio loop_playback bound).trace →
        file = "ffmpeg".toList ∧
        argv = ["ffmpeg".toList, "-re".toList, "-i".toList, file_name, "-f".toList,
          "pulse".toList, "-ac".toList, "2".toList,
          (target_sink w sink_name hear_audio).1]) ∧
    (∀ (v : World) (n : Nat), v.access "song.mp3".toList = true →
      connection_established v → v.pipe = true → v.fork 0 = true → 0 < n →
      (main v "song.mp3\n\nn\nn\n".toList n).call =
        some ⟨"song.mp3".toList, "virtual-mic".toList, false, false⟩ ∧
      invocations (main v "song.mp3\n\nn\nn\n".toList n).trace =
        [("ffmpeg".toList, ["ffmpeg".toList, "-re".toList, "-i".toList,
          "song.mp3".toList, "-f".toList, "pulse".toList, "-ac".toList, "2".toList,
          "virtual-mic".toList])] ∧
      (∀ argument issued, Event.load_module "module-combine-sink".toList argument issued ∉
        (main v "song.mp3\n\nn\nn\n".toList n).trace) ∧
      (main v "song.mp3\n\nn\nn\n".toList n).status = some 0) := by
  refine ⟨fun file argv h => play_audio_invocation _ _ _ _ _ _ _ _ h,
    fun v n hacc hc hp hf hn => ?_⟩
  obtain ⟨n, rfl⟩ : ∃ m, n = m + 1 := ⟨n - 1, by omega⟩
  obtain ⟨pa, hpa⟩ := hc
  have hrun := play_audio_connected v "song.mp3".toList "virtual-mic".toList false false
    (n + 1) pa hpa
  have hne : ¬ (LoopExit.completed = LoopExit.still_running) := by decide
  rw [if_pos hp, target_sink_silent, playback_loop_once _ _ _ _ _ hf] at hrun
  dsimp only at hrun
  rw [if_neg hne] at hrun
  rw [main_blank_sink v (n + 1) hacc]
  refine ⟨rfl, ?_, fun argument issued h => ?_, ?_⟩
  · have hce : invocations connect_events = [] := rfl
    have hcl : invocations cleanup_events = [] := rfl
    have hpi : invocations [Event.pipe true] = [] := rfl
    have hcons : ∀ t, invocations (Event.access "song.mp3".toList true :: t) =
        invocations t := fun _ => rfl
    rw [hrun]
    simp only [hcons, invocations_append, hce, hpi, hcl, invocations_ensure_virtual_sink,
      invocations_playback_pass]
    rfl
  · rw [List.mem_cons] at h
    rcases h with h | h
    · cases h
    · exact no_combine_load_without_hearing v _ _ _ _ argument issued h
  · rw [hrun]
    simp

theorem transcoder_argument_vector_witness :
    (main plain_world "song.mp3\n\nn\nn\n".toList 1).call =
      some ⟨"song.mp3".toList, "virtual-mic".toList, false, false⟩ ∧
    invocations (main plain_world "song.mp3\n\nn\nn\n".toList 1).trace =
      [("ffmpeg".toList, ["ffmpeg".toList, "-re".toList, "-i".toList,
        "song.mp3".toList, "-f".toList, "pulse".toList, "-ac".toList, "2".toList,
        "virtual-mic".toList])] ∧
    (∀ argument issued, Event.load_module "module-combine-sink".toList argument issued ∉
      (main plain_world "song.mp3\n\nn\nn\n".toList 1).trace) ∧
    (main plain_world "song.mp3\n\nn\nn\n".toList 1).status = some 0 :=
  (transcoder_argument_vector plain_world "song.mp3".toList "virtual-mic".toList false
    false 1).2 plain_world 1 rfl
    ⟨{ mainloop := true, mainloop_api := true, context := true, ready := 1 }, by decide⟩
    rfl rfl (by decide)

end PlaybackPulseAudio
